import Mathlib

/-!
Verification of the tidmon-cli transfer core against its specification.

The Python source is shallowly embedded: file contents are lists of byte
values (`Body := List Nat`), wall-clock instants are rationals or integers,
and every effectful collaborator (HTTP responses, file faults, token
refreshes) is passed in explicitly as data, so each function of the source
becomes a pure, executable Lean function over those inputs.
-/

namespace Tidmon

/-! ## Generic helpers mirroring Python primitives -/

/-- Python substring test `needle in hay`, on lists: some suffix of `hay`
starts with `needle` (the empty needle is contained in everything). -/
def containsSub {α : Type} [BEq α] (needle : List α) : List α → Bool
  | [] => needle.isEmpty
  | a :: rest => needle.isPrefixOf (a :: rest) || containsSub needle rest

/-- Python `needle in hay` for strings. -/
def strContainsSub (hay needle : String) : Bool :=
  containsSub needle.data hay.data

/-- Python `str.lower()` (ASCII is all the source ever compares). -/
def strLower (s : String) : String :=
  ⟨s.data.map Char.toLower⟩

/-- Python `abs(a - b)` for two sizes. -/
def natDist (a b : Nat) : Nat :=
  Int.natAbs ((a : Int) - (b : Int))

/-- File contents as a list of byte values. -/
abbrev Body : Type := List Nat

/-! ## Integrity checker

Embeds `FileIntegrityChecker` of `src/tidmon/core/downloader.py`.
The on-disk file is abstracted by `FileData`: its metadata (existence and
size, read by `Path.exists` / `Path.stat`) plus the four fallible
operations the `try` block performs (opening, reading the 12-byte header,
reading the first 256 KB for the moov scan, streaming the hash), each of
which either yields its value or raises, modelled by `Except`.
The digest itself is an opaque parameter (`Body → String`): md5/sha256 are
outside the model, and no claim depends on their value. -/

structure FileData where
  /-- `file_path.suffix` (with leading dot, original case). -/
  pathExt : String
  /-- `file_path.exists()`. -/
  fileExists : Bool
  /-- `file_path.stat().st_size`. -/
  size : Nat
  /-- `aiofiles.open(file_path, "rb")`: may raise. -/
  openRes : Except String Unit
  /-- `await f.read(12)`: may raise. -/
  header12 : Except String (List Nat)
  /-- `await f.seek(0); await f.read(262144)`: may raise. -/
  first256kb : Except String (List Nat)
  /-- streaming the whole file through the digest: may raise. -/
  hashRes : Except String String

/-- Byte signature `b'fLaC'`. -/
def flacMagic : List Nat := [102, 76, 97, 67]

/-- Byte signature `b'ftyp'`. -/
def ftypMagic : List Nat := [102, 116, 121, 112]

/-- Byte signature `b'ID3'`. -/
def id3Magic : List Nat := [73, 68, 51]

/-- Byte signature `b'moov'`. -/
def moovMagic : List Nat := [109, 111, 111, 118]

/-- The MP4-family extensions `['.m4a', '.mp4', '.m4v']`. -/
def mp4Exts : List String := [".m4a", ".mp4", ".m4v"]

/-- `FileIntegrityChecker._check_magic_bytes`. In the `.mp3` branch the
source indexes `header[0]`/`header[1]`, which is only reached with a
12-byte header (files below 2 KB were already rejected); shorter headers
fall back to the `startswith` part alone. -/
def checkMagicBytes (pathExt : String) (header : List Nat) : Bool :=
  let ext := strLower pathExt
  if ext == ".flac" then flacMagic.isPrefixOf header
  else if mp4Exts.contains ext then
    header.length ≥ 8 && (header.drop 4).take 4 == ftypMagic
  else if ext == ".mp3" then
    match header with
    | b0 :: b1 :: _ => id3Magic.isPrefixOf header || (b0 == 255 && Nat.land b1 224 == 224)
    | _ => id3Magic.isPrefixOf header
  else if ext == ".aac" then
    [255, 241].isPrefixOf header || [255, 249].isPrefixOf header
  else
    true

/-- The expected-size comparison `expected_size and abs(actual - expected) > 1024`:
Python truthiness makes `None` and `0` both skip the check. -/
def sizeMismatch (actual : Nat) (expected : Option Nat) : Bool :=
  match expected with
  | some es => es != 0 && natDist actual es > 1024
  | none => false

/-- The hash comparison at the end of the `try` block of
`verify_file_async`. Python truthiness: an empty `expected_hash` string
skips the check like `None` does. -/
def hashCheck (fd : FileData) (expectedHash : Option String) :
    Except String (Bool × Option String) :=
  match expectedHash with
  | some eh =>
    if eh != "" then
      match fd.hashRes with
      | Except.error e => Except.error e
      | Except.ok actualHash =>
        if actualHash != strLower eh then
          Except.ok (false, some "Hash mismatch")
        else
          Except.ok (true, none)
    else
      Except.ok (true, none)
  | none => Except.ok (true, none)

/-- The body of the `try` block of `verify_file_async`: magic bytes, the
moov scan for MP4-family files, and the optional hash comparison. Any
raised exception surfaces as `Except.error`. -/
def verifyBody (fd : FileData) (expectedHash : Option String) :
    Except String (Bool × Option String) :=
  match fd.openRes with
  | Except.error e => Except.error e
  | Except.ok _ =>
    match fd.header12 with
    | Except.error e => Except.error e
    | Except.ok header =>
      if !checkMagicBytes fd.pathExt header then
        Except.ok (false, some "Invalid file format (magic bytes check failed)")
      else if mp4Exts.contains (strLower fd.pathExt) then
        match fd.first256kb with
        | Except.error e => Except.error e
        | Except.ok blob =>
          if !containsSub moovMagic blob then
            Except.ok (false, some "Invalid MP4/M4A: missing moov atom")
          else
            hashCheck fd expectedHash
      else
        hashCheck fd expectedHash

/-- `FileIntegrityChecker.verify_file_async`: existence and size checks
first, then the `try` block, whose exceptions are caught and returned as
`(False, "Verification error: ...")`. -/
def verifyFileAsync (fd : FileData) (expectedSize : Option Nat)
    (expectedHash : Option String) : Bool × Option String :=
  if !fd.fileExists then (false, some "File does not exist")
  else if fd.size < 2048 then (false, some "File too small")
  else if sizeMismatch fd.size expectedSize then (false, some "Size mismatch")
  else
    match verifyBody fd expectedHash with
    | Except.ok r => r
    | Except.error e => (false, some ("Verification error: " ++ e))

/-- `FileData` for a file that is actually on disk with content `c`:
metadata comes from the content and none of the reads fault. -/
def fileDataOf (hashFn : Body → String) (pathExt : String) (c : Body) : FileData :=
  { pathExt := pathExt
    fileExists := true
    size := c.length
    openRes := Except.ok ()
    header12 := Except.ok (c.take 12)
    first256kb := Except.ok (c.take 262144)
    hashRes := Except.ok (hashFn c) }

/-- Verification of an on-disk file with content `c`. -/
def verifyContent (hashFn : Body → String) (pathExt : String) (c : Body)
    (expectedSize : Option Nat) (expectedHash : Option String) : Bool × Option String :=
  verifyFileAsync (fileDataOf hashFn pathExt c) expectedSize expectedHash

/-! ## Credential model

Embeds `TidalToken` (`src/core/auth_models.py`), `TokenStorage.load` and
`AuthClient.current_token` (`src/core/auth_client.py`). Wall-clock time is
an integer `now` passed explicitly. -/

structure TokenM where
  accessToken : String
  refreshToken : Option String
  /-- `expires_in` (the source defaults it to 604800). -/
  expiresIn : Int
  createdAt : Int

/-- `TidalToken.expires_at = created_at + expires_in`. -/
def TokenM.expiresAt (t : TokenM) : Int :=
  t.createdAt + t.expiresIn

/-- `TidalToken.is_expired = time.time() >= expires_at`. -/
def TokenM.isExpired (t : TokenM) (now : Int) : Bool :=
  now ≥ t.expiresAt

/-- `TidalToken.expires_soon(threshold) = (expires_at - time.time()) < threshold`. -/
def TokenM.expiresSoon (t : TokenM) (now threshold : Int) : Bool :=
  t.expiresAt - now < threshold

/-- What is on disk at the token-storage path. -/
inductive StoredToken
  | missing
  | unparsable
  | parsed (t : TokenM)

/-- `TokenStorage.load`: `None` when the file is missing, when reading or
parsing raises, or when the parsed token `is_expired`. -/
def tokenStorageLoad (s : StoredToken) (now : Int) : Option TokenM :=
  match s with
  | StoredToken.missing => none
  | StoredToken.unparsable => none
  | StoredToken.parsed t => if t.isExpired now then none else some t

/-- `AuthClient.__init__` sets `_current_token = token_storage.load()`. -/
def authClientInitToken (s : StoredToken) (now : Int) : Option TokenM :=
  tokenStorageLoad s now

/-- `AuthClient.current_token` (the property): if a token is cached and it
`expires_soon()` (threshold 3600 s), attempt `refresh_current_token()`
with the exception swallowed (`except Exception: pass`), then return
`_current_token`. The refresh outcome (including the `ValueError` when no
refresh token exists, and any network failure) is the `refreshOutcome`
oracle. Returns `(returned token, new cached token)`. -/
def currentTokenRun (cached : Option TokenM) (now : Int)
    (refreshOutcome : Except String TokenM) : Option TokenM × Option TokenM :=
  match cached with
  | some t =>
    if t.expiresSoon now 3600 then
      match refreshOutcome with
      | Except.ok t2 => (some t2, some t2)
      | Except.error _ => (some t, some t)
    else (some t, some t)
  | none => (none, none)

/-! ## Transfer engine

Embeds `DownloadTask`, `AdvancedDownloader.download_file` and
`AdvancedDownloader._download_with_progress` of
`src/tidmon/core/downloader.py`. The destination path is abstracted to its
extension (magic-byte dispatch is all the path is used for); the content
sitting at the destination is threaded separately as `Option Body`.
The network is an oracle `Nat → AttemptEnv` giving the outcome of the
n-th HTTP attempt (indexed by the pre-increment `attempts` value), and
each run also produces a trace of the observable filesystem effects. -/

inductive DownloadStatus
  | pending
  | downloading
  | verifying
  | completed
  | failed
  | skipped
  | corrupted
deriving DecidableEq, Repr

structure DownloadTask where
  url : String
  /-- suffix of `output_path` (identity of the path itself is irrelevant). -/
  ext : String
  trackTitle : Option String
  expectedSize : Option Nat
  expectedHash : Option String
  status : DownloadStatus
  attempts : Nat
  maxAttempts : Nat
  bytesDownloaded : Nat
  errorMessage : Option String
deriving DecidableEq, Repr

/-- `DownloadTask.can_retry`. -/
def DownloadTask.canRetry (t : DownloadTask) : Bool :=
  t.attempts < t.maxAttempts

/-- One HTTP response as `_download_with_progress` sees it. `streamFail`
models an exception raised while iterating the body: the first component
is how many bytes were written to the temp file before the raise, the
second the message produced by the matching `except` clause. -/
structure HttpResponse where
  status : Nat
  /-- the `Retry-After` header, when present (read as a string, default "60"). -/
  retryAfter : Option Nat
  contentType : String
  /-- the `content-length` header (`int(headers.get('content-length', 0))`). -/
  contentLength : Nat
  body : Body
  streamFail : Option (Nat × String)

/-- Outcome of one `session.get`: either the request itself raised (with
the message of the matching `except` clause) or a response arrived. -/
inductive HttpOutcome
  | connError (msg : String)
  | resp (r : HttpResponse)

/-- Environment for one attempt: the HTTP outcome, plus whether all five
`shutil.move` tries raise `OSError` (with `str(e)` as the message). -/
structure AttemptEnv where
  http : HttpOutcome
  moveFails : Bool
  moveErr : String

/-- Result of `_download_with_progress`: success carries the fully
streamed body now sitting in the temp file; failure carries the error
message and whatever content the temp file was left with. -/
inductive DlRes
  | ok (body : Body)
  | failed (err : String) (tmp : Option Body)

/-- The `Content-Type` gate: `"application/json" in ct or "text/" in ct`
on the lowered header value. -/
def contentTypeBad (ct : String) : Bool :=
  strContainsSub (strLower ct) "application/json" || strContainsSub (strLower ct) "text/"

/-- `AdvancedDownloader._download_with_progress`: status gates in source
order (429, 451, 403, other non-200), then the Content-Type gate, then
`expected_size` is taken from a positive `content-length`, then the body
is streamed into the temp file chunk by chunk. -/
def downloadWithProgress (task : DownloadTask) (o : HttpOutcome) :
    DownloadTask × DlRes :=
  match o with
  | HttpOutcome.connError msg => (task, DlRes.failed msg none)
  | HttpOutcome.resp r =>
    if r.status == 429 then
      let ra := match r.retryAfter with | some n => toString n | none => "60"
      (task, DlRes.failed ("Rate limited - retry after " ++ ra ++ "s") none)
    else if r.status == 451 then
      (task, DlRes.failed "Geo-blocked (HTTP 451)" none)
    else if r.status == 403 then
      (task, DlRes.failed "Forbidden - token may be expired (HTTP 403)" none)
    else if r.status != 200 then
      (task, DlRes.failed ("HTTP " ++ toString r.status) none)
    else if contentTypeBad r.contentType then
      (task, DlRes.failed ("Invalid Content-Type: " ++ strLower r.contentType) none)
    else
      let task := if r.contentLength > 0 then
        {task with expectedSize := some r.contentLength} else task
      match r.streamFail with
      | some (n, msg) =>
        let written := r.body.take n
        ({task with bytesDownloaded := written.length}, DlRes.failed msg (some written))
      | none =>
        ({task with bytesDownloaded := r.body.length}, DlRes.ok r.body)

/-- Observable filesystem / timing effects of a run. Bytes are only ever
written to the per-attempt uniquely suffixed temp file (`writeTemp`);
`moveToDest` is the `shutil.move` onto the destination; `verifyRun`
records an integrity-verifier invocation on content `c` with its verdict. -/
inductive Ev
  | httpRequest
  | writeTemp (c : Body)
  | moveToDest (c : Body)
  | verifyRun (c : Body) (ok : Bool)
  | deleteDest
  | deleteTemp
  | sleepSecs (n : Nat)
deriving DecidableEq, Repr

/-- How one iteration of the `while task.can_retry` loop ends: a `return`
out of the function, a `break` to the final `FAILED` block, or a
`continue` back to the loop head. -/
inductive CycleStep
  | finished (t : DownloadTask) (ok : Bool) (err : Option String)
  | exitLoop (t : DownloadTask)
  | again (t : DownloadTask)

/-- One iteration of the retry loop of `download_file` (lines 277-368):
increment the attempt counter, download into a fresh temp file, and then
either classify the failure (429/rate-limit sleep `min(60*attempts, 300)`,
otherwise exponential `2 ** attempts`), or move the temp file onto the
destination, verify it there, and on a failed verification delete the
destination file. A move that keeps raising `OSError` reaches the outer
`except` handler: the temp file is removed and the error message recorded. -/
def downloadCycle (hashFn : Body → String) (task0 : DownloadTask)
    (dest : Option Body) (env : AttemptEnv) :
    CycleStep × Option Body × List Ev :=
  let t1 := {task0 with attempts := task0.attempts + 1,
                        status := DownloadStatus.downloading}
  match downloadWithProgress t1 env.http with
  | (t2, DlRes.failed err tmp) =>
    let tmpEvs := match tmp with | some c => [Ev.writeTemp c] | none => []
    if strContainsSub err "429" || strContainsSub (strLower err) "rate limit" then
      (CycleStep.again t2, dest,
        Ev.httpRequest :: tmpEvs ++ [Ev.sleepSecs (min (60 * t2.attempts) 300)])
    else
      (CycleStep.again t2, dest,
        Ev.httpRequest :: tmpEvs ++ [Ev.sleepSecs (2 ^ t2.attempts)])
  | (t2, DlRes.ok body) =>
    if env.moveFails then
      let t3 := {t2 with errorMessage := some env.moveErr}
      let evs := [Ev.httpRequest, Ev.writeTemp body, Ev.sleepSecs 1,
                  Ev.sleepSecs 2, Ev.sleepSecs 3, Ev.sleepSecs 4, Ev.deleteTemp]
      if t3.canRetry then
        (CycleStep.again t3, dest, evs ++ [Ev.sleepSecs (2 ^ t3.attempts)])
      else
        (CycleStep.exitLoop t3, dest, evs)
    else
      let evs0 := [Ev.httpRequest, Ev.writeTemp body, Ev.moveToDest body]
      if (verifyContent hashFn t2.ext body t2.expectedSize t2.expectedHash).fst then
        (CycleStep.finished {t2 with status := DownloadStatus.completed} true none,
          some body, evs0 ++ [Ev.verifyRun body true])
      else
        let t3 := {t2 with status := DownloadStatus.corrupted}
        if t3.canRetry then
          (CycleStep.again t3, none,
            evs0 ++ [Ev.verifyRun body false, Ev.deleteDest,
                     Ev.sleepSecs (2 ^ t3.attempts)])
        else
          (CycleStep.exitLoop t3, none,
            evs0 ++ [Ev.verifyRun body false, Ev.deleteDest])

/-- Result of a whole `download_file` call. -/
structure RunResult where
  task : DownloadTask
  ok : Bool
  err : Option String
  dest : Option Body
  trace : List Ev
deriving Repr

/-- The final block of `download_file` (lines 370-377): mark the task
`FAILED`, with `error_message or "Max retries exceeded"` as the error. -/
def failedRun (t : DownloadTask) (dest : Option Body) (evs : List Ev) : RunResult :=
  { task := {t with status := DownloadStatus.failed}
    ok := false
    err := some (t.errorMessage.getD "Max retries exceeded")
    dest := dest
    trace := evs }

/-- The `while task.can_retry` loop, fuelled: the wrapper passes
`maxAttempts - attempts`, and each iteration increments `attempts` by
exactly one, so running out of fuel coincides with `can_retry` turning
false. -/
def downloadLoopGo (hashFn : Body → String) (envs : Nat → AttemptEnv) :
    Nat → DownloadTask → Option Body → List Ev → RunResult
  | 0, task, dest, evs => failedRun task dest evs
  | Nat.succ fuel, task, dest, evs =>
    match downloadCycle hashFn task dest (envs task.attempts) with
    | (CycleStep.finished t okr err, dest2, evs2) =>
      { task := t, ok := okr, err := err, dest := dest2, trace := evs ++ evs2 }
    | (CycleStep.exitLoop t, dest2, evs2) => failedRun t dest2 (evs ++ evs2)
    | (CycleStep.again t, dest2, evs2) =>
      downloadLoopGo hashFn envs fuel t dest2 (evs ++ evs2)

/-- `AdvancedDownloader.download_file`: if content already sits at the
destination, verify it — with the expected size only, `expected_hash` is
not passed (line 258-261) — and either skip or delete it and fall through
to the retry loop. -/
def downloadFileRun (hashFn : Body → String) (envs : Nat → AttemptEnv)
    (task : DownloadTask) (dest : Option Body) : RunResult :=
  match dest with
  | some c =>
    if (verifyContent hashFn task.ext c task.expectedSize none).fst then
      { task := {task with status := DownloadStatus.skipped}
        ok := true, err := none, dest := some c, trace := [] }
    else
      let r := downloadLoopGo hashFn envs (task.maxAttempts - task.attempts) task none []
      {r with trace := Ev.deleteDest :: r.trace}
  | none =>
    downloadLoopGo hashFn envs (task.maxAttempts - task.attempts) task none []

/-- Number of outbound HTTP requests recorded in a trace. -/
def countHttpRequests (evs : List Ev) : Nat :=
  evs.countP fun e => match e with | Ev.httpRequest => true | _ => false

/-- A content that is the complete body of a successful HTTP 200 response
(good content type, no mid-stream failure) somewhere in the oracle. -/
def CompleteBody (envs : Nat → AttemptEnv) (c : Body) : Prop :=
  ∃ n r, (envs n).http = HttpOutcome.resp r ∧ r.status = 200 ∧
    contentTypeBad r.contentType = false ∧ r.streamFail = none ∧ c = r.body

/-- Formalisation of the claimed placement discipline, from the words of
the specification: every move onto the destination path must be preceded
by a successful integrity verification of that same content (the temp
file is handed to the verifier first, and only on success is the rename
performed). -/
def specRenameOnlyAfterVerify : List Body → List Ev → Bool
  | _, [] => true
  | verified, Ev.verifyRun c true :: rest => specRenameOnlyAfterVerify (c :: verified) rest
  | verified, Ev.moveToDest c :: rest =>
    verified.contains c && specRenameOnlyAfterVerify verified rest
  | verified, _ :: rest => specRenameOnlyAfterVerify verified rest

/-! ## Segment assembler

Embeds `AdvancedDownloader.download_segments` (lines 473-527). The oracle
`Nat → Nat → SegOutcome` gives the outcome of attempt `a` on segment `i`;
`MAX_RETRIES = 3`. The single temp file accumulates the appended segment
bodies; `shutil.move` onto the destination happens once, after the url
loop. -/

/-- `MAX_RETRIES` of the downloader module. -/
def segMaxRetries : Nat := 3

/-- Outcome of one `session.get` on one segment attempt: either a response
(whose streaming may raise after `n` bytes were appended, with the message
of `str(e)`), or the request itself raised. -/
inductive SegOutcome
  | resp (status : Nat) (body : Body) (streamFail : Option (Nat × String))
  | exc (msg : String)

/-- How the inner `for attempt in range(MAX_RETRIES)` loop ends for one
segment: the segment loop moved on (`break`, or — on 429 exhaustion — the
`for` running out silently), an early `return False` (temp file left in
place), or an exception propagating to the outer handler. -/
inductive SegStep
  | ok (buf : Body)
  | failEarly (err : String) (buf : Body)
  | raised (err : String) (buf : Body)

/-- The attempt loop for segment `i`, with `buf` the bytes already in the
temp file. On 429 the code sleeps and continues; running out of attempts
this way falls off the `for` loop and is reported as `SegStep.ok` with the
buffer unchanged — nothing in the source aborts in that case. A non-200
status returns `(False, ...)` immediately. An exception on the last
attempt re-raises; earlier ones back off `2 ** attempt` and continue. -/
def runSegmentAttempts (oc : Nat → SegOutcome) (i : Nat) :
    Nat → Nat → Body → SegStep
  | 0, _, buf => SegStep.ok buf
  | Nat.succ fuel, attempt, buf =>
    match oc attempt with
    | SegOutcome.resp status body streamFail =>
      if status == 429 then
        runSegmentAttempts oc i fuel (attempt + 1) buf
      else if status != 200 then
        SegStep.failEarly ("Segment " ++ toString i ++ ": HTTP " ++ toString status) buf
      else
        match streamFail with
        | some (n, msg) =>
          let buf2 := buf ++ body.take n
          if attempt == segMaxRetries - 1 then SegStep.raised msg buf2
          else runSegmentAttempts oc i fuel (attempt + 1) buf2
        | none => SegStep.ok (buf ++ body)
    | SegOutcome.exc msg =>
      if attempt == segMaxRetries - 1 then SegStep.raised msg buf
      else runSegmentAttempts oc i fuel (attempt + 1) buf

/-- Result of a whole `download_segments` call: the returned pair plus the
content left at the destination and at the temp path. -/
structure SegRun where
  ok : Bool
  err : Option String
  dest : Option Body
  tmpLeft : Option Body
deriving Repr

/-- The url loop of `download_segments`, over segments `i, i+1, ...`. -/
def runSegmentsFrom (ocs : Nat → Nat → SegOutcome) :
    Nat → Nat → Body → SegRun
  | 0, _, buf =>
    -- url loop done: `shutil.move(tmp, output)` and return success
    { ok := true, err := none, dest := some buf, tmpLeft := none }
  | Nat.succ remaining, i, buf =>
    match runSegmentAttempts (ocs i) i segMaxRetries 0 buf with
    | SegStep.ok buf2 => runSegmentsFrom ocs remaining (i + 1) buf2
    | SegStep.failEarly e buf2 =>
      -- `return False, ...` inside the `try`: the temp file is not removed
      { ok := false, err := some e, dest := none, tmpLeft := some buf2 }
    | SegStep.raised e _ =>
      -- outer `except`: unlink the temp file, return the failure
      { ok := false, err := some e, dest := none, tmpLeft := none }

/-- `AdvancedDownloader.download_segments` for `numUrls` segment URLs. -/
def downloadSegmentsRun (ocs : Nat → Nat → SegOutcome) (numUrls : Nat) : SegRun :=
  runSegmentsFrom ocs numUrls 0 []

/-! ## Resilient HTTP client

Embeds `TidalClientImproved.fetch` (`src/core/client.py`). The two
requests a call can issue (initial and post-refresh) are an oracle
indexed by the `_refreshed` flag; the refresh callback is
`Option (Option String)`: `none` when no callback was supplied, otherwise
the token (or `None`) it returns. All failures leave the function as
`ApiError` carrying a status, modelled as `Except.error status`. -/

structure ClientResp where
  status : Nat
  /-- `response.json().get("subStatus")`; `none` also covers a non-JSON
  body (the `JSONDecodeError`/`AttributeError` branch just passes). -/
  subStatus : Option Nat
  /-- whether `model(**response.json())` succeeds on a 2xx body. -/
  parseOk : Bool

structure FetchOut where
  result : Except Nat Unit
  requests : Nat
  refreshes : Nat
deriving Repr

/-- `TidalClientImproved.fetch`, by the `_refreshed` flag. On a first 401
whose body carries `subStatus == 4005` the code re-raises at once (no
refresh). Otherwise it invokes the refresh callback; given a new token it
recurses with `_refreshed=True` — note that an `ApiError` raised by that
inner call is caught by the outer generic `except` clause and re-wrapped
as an `ApiError` with status 500. With `_refreshed=True` the 401 block is
skipped entirely, so a second 401 surfaces through `raise_for_status`. -/
def fetchModel (cb : Option (Option String)) (resps : Bool → ClientResp) :
    Bool → FetchOut
  | true =>
    let r := resps true
    if r.status ≥ 400 then { result := Except.error r.status, requests := 1, refreshes := 0 }
    else if r.parseOk then { result := Except.ok (), requests := 1, refreshes := 0 }
    else { result := Except.error 500, requests := 1, refreshes := 0 }
  | false =>
    let r := resps false
    if r.status == 401 then
      if r.subStatus == some 4005 then
        { result := Except.error 401, requests := 1, refreshes := 0 }
      else
        match cb with
        | some (some _newTok) =>
          let inner := fetchModel cb resps true
          { result := match inner.result with
                      | Except.ok u => Except.ok u
                      | Except.error _ => Except.error 500
            requests := inner.requests + 1
            refreshes := inner.refreshes + 1 }
        | some none =>
          { result := Except.error 401, requests := 1, refreshes := 1 }
        | none =>
          { result := Except.error 401, requests := 1, refreshes := 0 }
    else if r.status ≥ 400 then
      { result := Except.error r.status, requests := 1, refreshes := 0 }
    else if r.parseOk then
      { result := Except.ok (), requests := 1, refreshes := 0 }
    else
      { result := Except.error 500, requests := 1, refreshes := 0 }
termination_by b => if b then 0 else 1
decreasing_by simp

/-! ## Rate gate

Embeds the spacing gate of `TidalClientImproved.fetch` (lines 88-94) and
the penalty sleep at the head of `TidalAPI._fetch_with_retry`
(`src/tidmon/core/api.py`, lines 46-47). Instants are rationals (seconds
of the monotonic clock). -/

/-- `self._request_interval = 60.0 / 50.0`. -/
def requestInterval : Rat := 60 / 50

/-- The shared per-client gate state: `self._last_request_time`. -/
structure RateGate where
  lastRequestTime : Rat
deriving DecidableEq, Repr

/-- How long the gate sleeps when consulted at instant `now`. -/
def gateWait (g : RateGate) (now : Rat) : Rat :=
  let elapsed := now - g.lastRequestTime
  if elapsed < requestInterval then requestInterval - elapsed else 0

/-- Timing of one `fetch` call: the gate sleep, the instant the request is
handed to `session.get`, and the updated gate state. -/
structure FetchTiming where
  sleep : Rat
  requestTime : Rat
  gate : RateGate
deriving DecidableEq, Repr

/-- The gate as `fetch` runs it: the sleep and the timestamp update happen
before `session.get` is called, and therefore run whether or not the
response will be served from the local cache — `servedFromCache` is only
decided inside `session.get`, after the gate. -/
def fetchTiming (g : RateGate) (now : Rat) (_servedFromCache : Bool) : FetchTiming :=
  let w := gateWait g now
  { sleep := w, requestTime := now + w, gate := ⟨now + w⟩ }

/-- `TidalAPI._fetch_with_retry` first sleeps the current rate-limit
penalty, then calls `client.fetch`, which runs the gate. -/
def fetchWithRetryTiming (penalty : Rat) (g : RateGate) (now : Rat)
    (servedFromCache : Bool) : FetchTiming :=
  fetchTiming g (now + penalty) servedFromCache

/-! ## Shared concrete inputs for witnesses and counterexamples -/

/-- An opaque digest function for runs where no hash check fires. -/
def constHash : Body → String := fun _ => "d41d8cd98f00b204e9800998ecf8427e"

/-- A 2048-byte FLAC file: the `fLaC` signature followed by padding.
Large enough to pass the 2 KB floor of the integrity checker. -/
def flacBody : Body := flacMagic ++ List.replicate 2044 0

/-- A 10-byte FLAC file: correct signature, but far below the 2 KB floor,
so the integrity checker rejects it. -/
def smallBody : Body := flacMagic ++ List.replicate 6 0

/-- A fresh download task for a `.flac` destination, three attempts. -/
def sampleTask : DownloadTask :=
  { url := "https://example/stream", ext := ".flac", trackTitle := some "track"
    expectedSize := none, expectedHash := none, status := DownloadStatus.pending
    attempts := 0, maxAttempts := 3, bytesDownloaded := 0, errorMessage := none }

/-- An attempt whose response is a 429 carrying `Retry-After: 400`. -/
def env429 : AttemptEnv :=
  { http := HttpOutcome.resp
      { status := 429, retryAfter := some 400, contentType := "", contentLength := 0
        body := [], streamFail := none }
    moveFails := false, moveErr := "" }

/-- An attempt that delivers `smallBody` completely with HTTP 200. -/
def envSmall : AttemptEnv :=
  { http := HttpOutcome.resp
      { status := 200, retryAfter := none, contentType := "audio/flac"
        contentLength := 10, body := smallBody, streamFail := none }
    moveFails := false, moveErr := "" }

/-- An attempt that delivers `flacBody` completely with HTTP 200. -/
def envGood : AttemptEnv :=
  { http := HttpOutcome.resp
      { status := 200, retryAfter := none, contentType := "audio/flac"
        contentLength := 2048, body := flacBody, streamFail := none }
    moveFails := false, moveErr := "" }


/-- Oracle: both requests answer 401 with the content sub-status 4005. -/
def resps4005 : Bool → ClientResp :=
  fun _ => { status := 401, subStatus := some 4005, parseOk := true }

/-- Oracle: both requests answer a plain 401. -/
def resps401x2 : Bool → ClientResp :=
  fun _ => { status := 401, subStatus := none, parseOk := true }

/-- Oracle: first request 401, retried request 200. -/
def resps401then200 : Bool → ClientResp :=
  fun b =>
    if b then { status := 200, subStatus := none, parseOk := true }
    else { status := 401, subStatus := none, parseOk := true }

/-- A token created at 0 that expires at 10: at instant 5 it is not yet
expired but does expire soon. -/
def soonTok : TokenM :=
  { accessToken := "a", refreshToken := none, expiresIn := 10, createdAt := 0 }

/-- A token created at 0 with the default one-week lifetime. -/
def freshTok : TokenM :=
  { accessToken := "b", refreshToken := some "r", expiresIn := 604800, createdAt := 0 }

/-- A file whose header read raises. -/
def faultyFd : FileData :=
  { pathExt := ".flac", fileExists := true, size := 5000
    openRes := Except.ok (), header12 := Except.error "boom"
    first256kb := Except.ok [], hashRes := Except.ok "" }

/-- A small segment body. -/
def segBody1 : Body := [1, 2, 3, 4, 5]

/-- Segment oracle: segment 0 answers HTTP 429 on every attempt (its three
retries are exhausted without ever seeing a 200); segment 1 delivers
`segBody1` with HTTP 200 at once. -/
def seg429Ocs : Nat → Nat → SegOutcome := fun i _ =>
  if i == 0 then SegOutcome.resp 429 [] none
  else SegOutcome.resp 200 segBody1 none

/-! ## Helper lemmas about the substring test -/

theorem containsSub_nil_needle {α : Type} [BEq α] (l : List α) :
    containsSub ([] : List α) l = true := by
  cases l <;> simp [containsSub, List.isPrefixOf]

theorem containsSub_of_isPrefixOf {α : Type} [BEq α] {n l : List α}
    (h : n.isPrefixOf l = true) : containsSub n l = true := by
  cases l with
  | nil =>
    cases n with
    | nil => simp [containsSub]
    | cons a as => simp [List.isPrefixOf] at h
  | cons a rest => simp [containsSub, h]

theorem containsSub_append_left {α : Type} [BEq α] [LawfulBEq α] {n : List α} :
    ∀ {l₁ : List α} (l₂ : List α), containsSub n l₁ = true →
      containsSub n (l₁ ++ l₂) = true := by
  intro l₁
  induction l₁ with
  | nil =>
    intro l₂ h
    simp [containsSub] at h
    subst h
    exact containsSub_nil_needle l₂
  | cons a rest ih =>
    intro l₂ h
    simp only [containsSub, Bool.or_eq_true] at h
    rcases h with h | h
    · have hp : n <+: (a :: rest) := List.isPrefixOf_iff_prefix.mp h
      have hp2 : n <+: (a :: rest) ++ l₂ := hp.trans (List.prefix_append _ _)
      simp only [containsSub, Bool.or_eq_true]
      exact Or.inl (List.isPrefixOf_iff_prefix.mpr hp2)
    · have := ih l₂ h
      simp [containsSub, this]

theorem strData_append (a b : String) : (a ++ b).data = a.data ++ b.data := by
  cases a
  cases b
  rfl

/-- The error message `_download_with_progress` produces for a 429 always
matches the rate-limit classification of the retry loop, whatever the
`Retry-After` value was. -/
theorem rateMsg_matches (ra : String) :
    strContainsSub (strLower ("Rate limited - retry after " ++ ra ++ "s"))
      "rate limit" = true := by
  show containsSub ("rate limit").data
    ((("Rate limited - retry after " ++ ra ++ "s").data).map Char.toLower) = true
  rw [strData_append, strData_append, List.map_append, List.map_append,
    List.append_assoc]
  exact containsSub_append_left _ (by decide)

/-! ## Claims C5, C6, C8, C9, C10 -/

/-- C5 (corrected): the gate of `TidalClientImproved.fetch` enforces a
spacing of `minimumInterval` (1.2 s) alone — not
`minimumInterval + penaltyDelay` — and it runs for every call, whether or
not the response is served from the local cache: if less than 1.2 s has
elapsed since the previous gate stamp it sleeps the remainder, then stamps
the request instant; the api-layer penalty is a separate sleep at the head
of `_fetch_with_retry` that does not add to the guaranteed spacing. -/
theorem c5_rate_gate (g : RateGate) (now : Rat) (cached : Bool)
    (_h : g.lastRequestTime ≤ now) :
    g.lastRequestTime + requestInterval ≤ (fetchTiming g now cached).requestTime ∧
    (fetchTiming g now cached).gate.lastRequestTime =
      (fetchTiming g now cached).requestTime ∧
    fetchTiming g now cached = fetchTiming g now true := by
  refine ⟨?_, rfl, rfl⟩
  simp only [fetchTiming, gateWait]
  split
  · linarith
  · next hge => linarith [not_lt.mp hge]

/-- Witness for `c5_rate_gate` at a concrete gate state and instant. -/
theorem c5_rate_gate_witness :
    (⟨0⟩ : RateGate).lastRequestTime + requestInterval ≤
      (fetchTiming ⟨0⟩ 2 true).requestTime ∧
    (fetchTiming ⟨0⟩ 2 true).gate.lastRequestTime =
      (fetchTiming ⟨0⟩ 2 true).requestTime ∧
    fetchTiming ⟨0⟩ 2 true = fetchTiming ⟨0⟩ 2 true :=
  c5_rate_gate ⟨0⟩ 2 true (by norm_num)

/-- C5 counterexample to the claim as stated: a call served from the cache
still sleeps at the gate (last request at 0, call at 0.5 sleeps 0.7 s), so
cached responses do not bypass it; and with a pending penalty of 1 s the
next real request after one at instant 0 goes out at 1.2 s — closer than
`minimumInterval + penaltyDelay = 2.2 s`. -/
theorem c5_counterexample :
    (fetchTiming ⟨0⟩ (1 / 2) true).sleep = 7 / 10 ∧
    ((7 : Rat) / 10 ≠ 0) ∧
    (fetchWithRetryTiming 1 ⟨0⟩ 0 false).requestTime < requestInterval + 1 := by
  refine ⟨?_, by norm_num, ?_⟩ <;>
    norm_num [fetchTiming, fetchWithRetryTiming, gateWait, requestInterval]

/-- With `_refreshed=True` a 401 skips the refresh block and surfaces
through `raise_for_status` as an `ApiError` with status 401. -/
theorem fetchModel_retried_401 (cb : Option (Option String)) (resps : Bool → ClientResp)
    (h : (resps true).status = 401) :
    fetchModel cb resps true =
      { result := Except.error 401, requests := 1, refreshes := 0 } := by
  unfold fetchModel
  simp [h]

/-- With `_refreshed=True` a parseable 200 succeeds. -/
theorem fetchModel_retried_200 (cb : Option (Option String)) (resps : Bool → ClientResp)
    (h : (resps true).status = 200) (hp : (resps true).parseOk = true) :
    fetchModel cb resps true =
      { result := Except.ok (), requests := 1, refreshes := 0 } := by
  unfold fetchModel
  simp [h, hp]

/-- C6 (confirmed): on a first 401 whose body carries the content-specific
sub-status 4005, `fetch` raises at once with no refresh and no retry; on a
401 without it, given a refresh callback that yields a new token, the same
request is retried exactly once — if the retried request also returns 401
the call ends in a raised `ApiError` (re-wrapped with status 500 by the
generic handler) after exactly two requests and one refresh, and if it
returns a parseable 200 the call succeeds with the same counts. -/
theorem c6_auth_refresh (cb : Option (Option String)) (resps : Bool → ClientResp)
    (tok : String) :
    ((resps false).status = 401 → (resps false).subStatus = some 4005 →
      fetchModel cb resps false =
        { result := Except.error 401, requests := 1, refreshes := 0 }) ∧
    ((resps false).status = 401 → (resps false).subStatus ≠ some 4005 →
      cb = some (some tok) → (resps true).status = 401 →
      fetchModel cb resps false =
        { result := Except.error 500, requests := 2, refreshes := 1 }) ∧
    ((resps false).status = 401 → (resps false).subStatus ≠ some 4005 →
      cb = some (some tok) → (resps true).status = 200 → (resps true).parseOk = true →
      fetchModel cb resps false =
        { result := Except.ok (), requests := 2, refreshes := 1 }) := by
  refine ⟨?_, ?_, ?_⟩
  · intro h1 h2
    unfold fetchModel
    simp [h1, h2]
  · intro h1 h2 h3 h4
    have hsub : ((resps false).subStatus == some 4005) = false := by
      simp [h2]
    unfold fetchModel
    simp [h1, h3, hsub, fetchModel_retried_401 (some (some tok)) resps h4]
  · intro h1 h2 h3 h4 h5
    have hsub : ((resps false).subStatus == some 4005) = false := by
      simp [h2]
    unfold fetchModel
    simp [h1, h3, hsub, fetchModel_retried_200 (some (some tok)) resps h4 h5]

/-- Witness for `c6_auth_refresh` on the three concrete oracles. -/
theorem c6_auth_refresh_witness :
    fetchModel (some (some "t")) resps4005 false =
      { result := Except.error 401, requests := 1, refreshes := 0 } ∧
    fetchModel (some (some "t")) resps401x2 false =
      { result := Except.error 500, requests := 2, refreshes := 1 } ∧
    fetchModel (some (some "t")) resps401then200 false =
      { result := Except.ok (), requests := 2, refreshes := 1 } :=
  ⟨(c6_auth_refresh (some (some "t")) resps4005 "t").1 rfl rfl,
   (c6_auth_refresh (some (some "t")) resps401x2 "t").2.1 rfl (by decide) rfl rfl,
   (c6_auth_refresh (some (some "t")) resps401then200 "t").2.2 rfl (by decide)
     rfl rfl rfl⟩

/-- C8 (corrected): `current_token` returns the cached token untouched
when it is not about to expire; when it `expires_soon` it attempts one
synchronous refresh — on success the fresh token is returned, but on a
failed refresh (the exception is swallowed) the stale, almost-expired
cached token is returned anyway. -/
theorem c8_current_token (cached : Option TokenM) (now : Int)
    (ro : Except String TokenM) :
    (∀ t : TokenM, cached = some t → t.expiresSoon now 3600 = false →
      currentTokenRun cached now ro = (some t, some t)) ∧
    (∀ t t2 : TokenM, cached = some t → t.expiresSoon now 3600 = true →
      ro = Except.ok t2 → currentTokenRun cached now ro = (some t2, some t2)) ∧
    (∀ (t : TokenM) (e : String), cached = some t → t.expiresSoon now 3600 = true →
      ro = Except.error e → currentTokenRun cached now ro = (some t, some t)) := by
  refine ⟨?_, ?_, ?_⟩
  · intro t hc hs
    subst hc
    simp [currentTokenRun, hs]
  · intro t t2 hc hs hr
    subst hc
    subst hr
    simp [currentTokenRun, hs]
  · intro t e hc hs hr
    subst hc
    subst hr
    simp [currentTokenRun, hs]

/-- Witness for `c8_current_token` on concrete tokens. -/
theorem c8_current_token_witness :
    currentTokenRun (some freshTok) 5 (Except.error "e") = (some freshTok, some freshTok) ∧
    currentTokenRun (some soonTok) 5 (Except.ok freshTok) = (some freshTok, some freshTok) ∧
    currentTokenRun (some soonTok) 5 (Except.error "e") = (some soonTok, some soonTok) :=
  ⟨(c8_current_token (some freshTok) 5 (Except.error "e")).1 freshTok rfl (by decide),
   (c8_current_token (some soonTok) 5 (Except.ok freshTok)).2.1 soonTok freshTok rfl
     (by decide) rfl,
   (c8_current_token (some soonTok) 5 (Except.error "e")).2.2 soonTok "e" rfl
     (by decide) rfl⟩

/-- C8 counterexample to the claim as stated: when the cached token
expires soon and the refresh attempt fails, the caller receives the
almost-expired token — `expires_soon` still holds for what was returned. -/
theorem c8_counterexample :
    (currentTokenRun (some soonTok) 5 (Except.error "ValueError")).fst = some soonTok ∧
    soonTok.expiresSoon 5 3600 = true ∧
    soonTok.isExpired 5 = false := by
  exact ⟨rfl, by decide, by decide⟩

/-- C9 (confirmed): when the file exists and passes the size checks, any
exception raised inside the `try` block of `verify_file_async` — opening,
reading the 12-byte header, reading the first 256 KB for the moov scan, or
streaming the hash — is caught and returned as the data value
`(False, "Verification error: ...")`; it never propagates. -/
theorem c9_verify_catches (fd : FileData) (es : Option Nat) (eh : Option String)
    (e : String) (h1 : fd.fileExists = true) (h2 : ¬ fd.size < 2048)
    (h3 : sizeMismatch fd.size es = false)
    (h4 : verifyBody fd eh = Except.error e) :
    verifyFileAsync fd es eh = (false, some ("Verification error: " ++ e)) := by
  simp [verifyFileAsync, h1, h2, h3, h4]

/-- Witness for `c9_verify_catches` on a file whose header read raises. -/
theorem c9_verify_catches_witness :
    verifyFileAsync faultyFd none none = (false, some ("Verification error: " ++ "boom")) :=
  c9_verify_catches faultyFd none none "boom" rfl (by decide) rfl rfl

/-- C10 (confirmed): `TokenStorage.load` yields `None` for a missing file,
for an unreadable or unparsable one, and for any persisted token that
`is_expired`; consequently any token with which `AuthClient.__init__`
starts is not expired. -/
theorem c10_no_expired_from_storage (s : StoredToken) (now : Int) :
    tokenStorageLoad StoredToken.missing now = none ∧
    tokenStorageLoad StoredToken.unparsable now = none ∧
    (∀ t : TokenM, t.isExpired now = true →
      tokenStorageLoad (StoredToken.parsed t) now = none) ∧
    (∀ t : TokenM, authClientInitToken s now = some t → t.isExpired now = false) := by
  refine ⟨rfl, rfl, ?_, ?_⟩
  · intro t h
    simp [tokenStorageLoad, h]
  · intro t h
    cases s with
    | missing => simp [authClientInitToken, tokenStorageLoad] at h
    | unparsable => simp [authClientInitToken, tokenStorageLoad] at h
    | parsed t2 =>
      simp only [authClientInitToken, tokenStorageLoad] at h
      cases hexp : t2.isExpired now with
      | true => rw [hexp] at h; simp at h
      | false =>
        rw [hexp] at h
        simp only [if_neg Bool.false_ne_true, Option.some.injEq] at h
        subst h
        exact hexp

/-- Witness for `c10_no_expired_from_storage`: an expired persisted token
loads as `None`, and a freshly persisted token starts unexpired. -/
theorem c10_no_expired_from_storage_witness :
    tokenStorageLoad (StoredToken.parsed soonTok) 100 = none ∧
    freshTok.isExpired 5 = false :=
  ⟨(c10_no_expired_from_storage (StoredToken.parsed soonTok) 100).2.2.1 soonTok
     (by decide),
   (c10_no_expired_from_storage (StoredToken.parsed freshTok) 5).2.2.2 freshTok rfl⟩

/-! ## Lemmas about one download attempt -/

theorem downloadWithProgress_pres (t : DownloadTask) (o : HttpOutcome) :
    (downloadWithProgress t o).fst.attempts = t.attempts ∧
    (downloadWithProgress t o).fst.maxAttempts = t.maxAttempts ∧
    (downloadWithProgress t o).fst.ext = t.ext ∧
    (downloadWithProgress t o).fst.expectedHash = t.expectedHash ∧
    (downloadWithProgress t o).fst.status = t.status ∧
    (downloadWithProgress t o).fst.errorMessage = t.errorMessage := by
  cases o with
  | connError msg => simp [downloadWithProgress]
  | resp r =>
    simp only [downloadWithProgress]
    repeat' split
    all_goals simp_all

theorem downloadWithProgress_ok {t : DownloadTask} {o : HttpOutcome}
    {t2 : DownloadTask} {body : Body}
    (h : downloadWithProgress t o = (t2, DlRes.ok body)) :
    ∃ r, o = HttpOutcome.resp r ∧ r.status = 200 ∧
      contentTypeBad r.contentType = false ∧ r.streamFail = none ∧ body = r.body := by
  cases o with
  | connError msg => simp [downloadWithProgress] at h
  | resp r =>
    refine ⟨r, rfl, ?_⟩
    simp only [downloadWithProgress] at h
    split at h
    · simp_all
    · split at h
      · simp_all
      · split at h
        · simp_all
        · split at h
          · simp_all
          · split at h
            · simp_all
            · split at h
              · simp_all
              · simp_all

/-! ## Lemmas about one iteration of the retry loop -/

theorem downloadCycle_again {hf : Body → String} {task : DownloadTask}
    {dest : Option Body} {env : AttemptEnv} {t2 : DownloadTask}
    {d : Option Body} {evs : List Ev}
    (h : downloadCycle hf task dest env = (CycleStep.again t2, d, evs)) :
    t2.attempts = task.attempts + 1 ∧ t2.maxAttempts = task.maxAttempts ∧
    t2.ext = task.ext ∧ t2.expectedHash = task.expectedHash := by
  have hp := downloadWithProgress_pres
    {task with attempts := task.attempts + 1, status := DownloadStatus.downloading} env.http
  rcases hdl : downloadWithProgress
    {task with attempts := task.attempts + 1, status := DownloadStatus.downloading} env.http
    with ⟨tt, res⟩
  rw [hdl] at hp
  simp only at hp
  cases res with
  | failed err tmp =>
    simp only [downloadCycle, hdl] at h
    split at h <;>
      (simp only [Prod.mk.injEq, CycleStep.again.injEq] at h;
       obtain ⟨ht, _, _⟩ := h; subst ht; simp_all)
  | ok body =>
    simp only [downloadCycle, hdl] at h
    split at h
    · split at h
      · simp only [Prod.mk.injEq, CycleStep.again.injEq] at h
        obtain ⟨ht, _, _⟩ := h; subst ht; simp_all
      · simp at h
    · split at h
      · simp at h
      · split at h
        · simp only [Prod.mk.injEq, CycleStep.again.injEq] at h
          obtain ⟨ht, _, _⟩ := h; subst ht; simp_all
        · simp at h

theorem downloadCycle_exitLoop {hf : Body → String} {task : DownloadTask}
    {dest : Option Body} {env : AttemptEnv} {t2 : DownloadTask}
    {d : Option Body} {evs : List Ev}
    (h : downloadCycle hf task dest env = (CycleStep.exitLoop t2, d, evs)) :
    t2.maxAttempts ≤ t2.attempts := by
  rcases hdl : downloadWithProgress
    {task with attempts := task.attempts + 1, status := DownloadStatus.downloading} env.http
    with ⟨tt, res⟩
  cases res with
  | failed err tmp =>
    simp only [downloadCycle, hdl] at h
    split at h <;> simp at h
  | ok body =>
    simp only [downloadCycle, hdl] at h
    split at h
    · split at h
      · simp at h
      · rename_i hcr
        simp only [Prod.mk.injEq, CycleStep.exitLoop.injEq] at h
        obtain ⟨ht, _, _⟩ := h
        subst ht
        have hcr2 : ¬ (tt.attempts < tt.maxAttempts) := by
          simpa [DownloadTask.canRetry] using hcr
        show tt.maxAttempts ≤ tt.attempts
        omega
    · split at h
      · simp at h
      · split at h
        · simp at h
        · rename_i hcr
          simp only [Prod.mk.injEq, CycleStep.exitLoop.injEq] at h
          obtain ⟨ht, _, _⟩ := h
          subst ht
          have hcr2 : ¬ (tt.attempts < tt.maxAttempts) := by
            simpa [DownloadTask.canRetry] using hcr
          show tt.maxAttempts ≤ tt.attempts
          omega

theorem downloadCycle_finished {hf : Body → String} {task : DownloadTask}
    {dest : Option Body} {env : AttemptEnv} {t2 : DownloadTask} {okr : Bool}
    {err : Option String} {d : Option Body} {evs : List Ev}
    (h : downloadCycle hf task dest env = (CycleStep.finished t2 okr err, d, evs)) :
    okr = true ∧ err = none ∧ t2.status = DownloadStatus.completed ∧
    ∃ c, d = some c ∧
      (verifyContent hf t2.ext c t2.expectedSize t2.expectedHash).fst = true := by
  rcases hdl : downloadWithProgress
    {task with attempts := task.attempts + 1, status := DownloadStatus.downloading} env.http
    with ⟨tt, res⟩
  cases res with
  | failed err2 tmp =>
    simp only [downloadCycle, hdl] at h
    split at h <;> simp at h
  | ok body =>
    simp only [downloadCycle, hdl] at h
    split at h
    · split at h <;> simp at h
    · split at h
      · rename_i hv
        simp only [Prod.mk.injEq, CycleStep.finished.injEq] at h
        obtain ⟨⟨ht, hok, herr⟩, hd, _⟩ := h
        subst ht
        refine ⟨hok.symm, herr.symm, rfl, body, hd.symm, ?_⟩
        simpa using hv
      · split at h <;> simp at h

theorem downloadCycle_move {hf : Body → String} {task : DownloadTask}
    {dest : Option Body} {env : AttemptEnv} {st : CycleStep}
    {d : Option Body} {evs : List Ev} {c : Body}
    (h : downloadCycle hf task dest env = (st, d, evs))
    (hm : Ev.moveToDest c ∈ evs) :
    ∃ r, env.http = HttpOutcome.resp r ∧ r.status = 200 ∧
      contentTypeBad r.contentType = false ∧ r.streamFail = none ∧ c = r.body := by
  rcases hdl : downloadWithProgress
    {task with attempts := task.attempts + 1, status := DownloadStatus.downloading} env.http
    with ⟨tt, res⟩
  cases res with
  | failed err tmp =>
    simp only [downloadCycle, hdl] at h
    cases tmp with
    | none =>
      split at h <;>
        (simp only [Prod.mk.injEq] at h; obtain ⟨_, _, hevs⟩ := h;
         subst hevs; simp at hm)
    | some cw =>
      split at h <;>
        (simp only [Prod.mk.injEq] at h; obtain ⟨_, _, hevs⟩ := h;
         subst hevs; simp at hm)
  | ok body =>
    simp only [downloadCycle, hdl] at h
    split at h
    · split at h <;>
        (simp only [Prod.mk.injEq] at h; obtain ⟨_, _, hevs⟩ := h;
         subst hevs; simp at hm)
    · have hbody : c = body := by
        split at h
        · simp only [Prod.mk.injEq] at h
          obtain ⟨_, _, hevs⟩ := h
          subst hevs
          simp at hm
          exact hm
        · split at h
          · simp only [Prod.mk.injEq] at h
            obtain ⟨_, _, hevs⟩ := h
            subst hevs
            simp at hm
            exact hm
          · simp only [Prod.mk.injEq] at h
            obtain ⟨_, _, hevs⟩ := h
            subst hevs
            simp at hm
            exact hm
      subst hbody
      obtain ⟨r, hr, h200, hct, hsf, hb⟩ := downloadWithProgress_ok hdl
      exact ⟨r, hr, h200, hct, hsf, hb⟩

/-! ## Loop invariants of download_file -/

theorem downloadLoopGo_spec (hf : Body → String) (envs : Nat → AttemptEnv) :
    ∀ (fuel : Nat) (task : DownloadTask) (dest : Option Body) (evs : List Ev),
      task.maxAttempts ≤ task.attempts + fuel →
      ((downloadLoopGo hf envs fuel task dest evs).task.status = DownloadStatus.completed →
        ∃ c, (downloadLoopGo hf envs fuel task dest evs).dest = some c ∧
          (verifyContent hf (downloadLoopGo hf envs fuel task dest evs).task.ext c
            (downloadLoopGo hf envs fuel task dest evs).task.expectedSize
            (downloadLoopGo hf envs fuel task dest evs).task.expectedHash).fst = true) ∧
      ((downloadLoopGo hf envs fuel task dest evs).task.status = DownloadStatus.failed →
        (downloadLoopGo hf envs fuel task dest evs).task.maxAttempts ≤
          (downloadLoopGo hf envs fuel task dest evs).task.attempts) := by
  intro fuel
  induction fuel with
  | zero =>
    intro task dest evs hle
    constructor
    · intro hcomp
      simp [downloadLoopGo, failedRun] at hcomp
    · intro _
      simp only [downloadLoopGo, failedRun]
      omega
  | succ fuel ih =>
    intro task dest evs hle
    rcases hc : downloadCycle hf task dest (envs task.attempts) with ⟨st, d2, evs2⟩
    cases st with
    | finished t okr err =>
      obtain ⟨hok, herr, hst, c, hd, hv⟩ := downloadCycle_finished hc
      constructor
      · intro _
        simp only [downloadLoopGo, hc]
        exact ⟨c, hd, hv⟩
      · intro hfail
        simp only [downloadLoopGo, hc] at hfail
        rw [hst] at hfail
        simp at hfail
    | exitLoop t =>
      have hex := downloadCycle_exitLoop hc
      constructor
      · intro hcomp
        simp [downloadLoopGo, hc, failedRun] at hcomp
      · intro _
        simp only [downloadLoopGo, hc, failedRun]
        omega
    | again t =>
      obtain ⟨ha, hmax, _, _⟩ := downloadCycle_again hc
      have hb : t.maxAttempts ≤ t.attempts + fuel := by omega
      have := ih t d2 (evs ++ evs2) hb
      simpa [downloadLoopGo, hc] using this

theorem downloadLoopGo_moves (hf : Body → String) (envs : Nat → AttemptEnv) :
    ∀ (fuel : Nat) (task : DownloadTask) (dest : Option Body) (evs : List Ev),
      (∀ c : Body, Ev.moveToDest c ∈ evs → CompleteBody envs c) →
      ∀ c : Body, Ev.moveToDest c ∈ (downloadLoopGo hf envs fuel task dest evs).trace →
        CompleteBody envs c := by
  intro fuel
  induction fuel with
  | zero =>
    intro task dest evs hbase c hm
    simp only [downloadLoopGo, failedRun] at hm
    exact hbase c hm
  | succ fuel ih =>
    intro task dest evs hbase c hm
    rcases hc : downloadCycle hf task dest (envs task.attempts) with ⟨st, d2, evs2⟩
    have hcyc : ∀ c2 : Body, Ev.moveToDest c2 ∈ evs2 → CompleteBody envs c2 := by
      intro c2 hm2
      obtain ⟨r, hr, h200, hct, hsf, hb⟩ := downloadCycle_move hc hm2
      exact ⟨task.attempts, r, hr, h200, hct, hsf, hb⟩
    have happ : ∀ c2 : Body, Ev.moveToDest c2 ∈ evs ++ evs2 → CompleteBody envs c2 := by
      intro c2 hm2
      rcases List.mem_append.mp hm2 with hx | hx
      · exact hbase c2 hx
      · exact hcyc c2 hx
    cases st with
    | finished t okr err =>
      simp only [downloadLoopGo, hc] at hm
      exact happ c hm
    | exitLoop t =>
      simp only [downloadLoopGo, hc, failedRun] at hm
      exact happ c hm
    | again t =>
      simp only [downloadLoopGo, hc] at hm
      exact ih t d2 (evs ++ evs2) happ c hm

/-! ## Evaluation lemmas for the concrete 2 KB FLAC runs -/

theorem flacBody_length : flacBody.length = 2048 := by
  show (flacMagic ++ List.replicate 2044 0).length = 2048
  rw [List.length_append, List.length_replicate]
  decide

theorem flacBody_take12 : flacBody.take 12 = flacMagic ++ List.replicate 8 (0 : Nat) := by
  show List.take 12 (flacMagic ++ List.replicate 2044 0) = _
  rw [List.take_append_eq_append_take, List.take_replicate]
  have h1 : List.take 12 flacMagic = flacMagic := by decide
  have h2 : (12 : Nat) - flacMagic.length = 8 := by decide
  rw [h1, h2, Nat.min_eq_left (by norm_num)]

theorem checkMagic_flac : checkMagicBytes ".flac" (flacBody.take 12) = true := by
  rw [flacBody_take12]
  have hpre : flacMagic.isPrefixOf (flacMagic ++ List.replicate 8 (0 : Nat)) = true :=
    List.isPrefixOf_iff_prefix.mpr (List.prefix_append _ _)
  have hlow : strLower ".flac" = ".flac" := by decide
  simp [checkMagicBytes, hlow, hpre]

theorem verifyContent_flacBody (hf : Body → String) (es : Option Nat)
    (hes : sizeMismatch 2048 es = false) :
    verifyContent hf ".flac" flacBody es none = (true, none) := by
  have hlow : strLower ".flac" = ".flac" := by decide
  have hmp4 : ".flac" ∉ mp4Exts := by decide
  simp [verifyContent, verifyFileAsync, fileDataOf, verifyBody, hashCheck,
    flacBody_length, hes, checkMagic_flac, hlow, hmp4]

/-- Full evaluation of one attempt of the successful 2 KB FLAC run. -/
theorem downloadCycle_envGood :
    downloadCycle constHash sampleTask none envGood =
      (CycleStep.finished
        {sampleTask with
          attempts := 1
          status := DownloadStatus.completed
          expectedSize := some 2048
          bytesDownloaded := flacBody.length} true none,
       some flacBody,
       [Ev.httpRequest, Ev.writeTemp flacBody, Ev.moveToDest flacBody,
        Ev.verifyRun flacBody true]) := by
  have hct : contentTypeBad "audio/flac" = false := by decide
  have hv := verifyContent_flacBody constHash (some 2048) (by decide)
  simp [downloadCycle, downloadWithProgress, envGood, sampleTask, hct, hv]

/-- Full evaluation of the successful 2 KB FLAC run. -/
theorem downloadFileRun_envGood :
    downloadFileRun constHash (fun _ => envGood) sampleTask none =
      { task := {sampleTask with
          attempts := 1
          status := DownloadStatus.completed
          expectedSize := some 2048
          bytesDownloaded := flacBody.length}
        ok := true
        err := none
        dest := some flacBody
        trace := [Ev.httpRequest, Ev.writeTemp flacBody, Ev.moveToDest flacBody,
                  Ev.verifyRun flacBody true] } := by
  simp only [downloadFileRun]
  have h30 : sampleTask.maxAttempts - sampleTask.attempts = 3 := by decide
  rw [h30]
  simp [downloadLoopGo, downloadCycle_envGood]

/-! ## Claims C1, C2, C4, C7, C3 -/

/-- C2 (confirmed): whatever the task, the pre-existing destination content
and the network behaviour, `download_file` reports `COMPLETED` only with
destination content that passed the integrity verifier with the final
expected size and hash of the task, and it reports `FAILED` only once the
attempt counter has reached `max_attempts` — never earlier. -/
theorem c2_terminal_invariants (hf : Body → String) (envs : Nat → AttemptEnv)
    (task : DownloadTask) (dest : Option Body) :
    ((downloadFileRun hf envs task dest).task.status = DownloadStatus.completed →
      ∃ c, (downloadFileRun hf envs task dest).dest = some c ∧
        (verifyContent hf (downloadFileRun hf envs task dest).task.ext c
          (downloadFileRun hf envs task dest).task.expectedSize
          (downloadFileRun hf envs task dest).task.expectedHash).fst = true) ∧
    ((downloadFileRun hf envs task dest).task.status = DownloadStatus.failed →
      (downloadFileRun hf envs task dest).task.maxAttempts ≤
        (downloadFileRun hf envs task dest).task.attempts) := by
  have hloop := downloadLoopGo_spec hf envs (task.maxAttempts - task.attempts)
    task none [] (by omega)
  cases dest with
  | none => simpa only [downloadFileRun] using hloop
  | some c0 =>
    by_cases hv : (verifyContent hf task.ext c0 task.expectedSize none).fst = true
    · constructor
      · intro hcomp
        simp [downloadFileRun, hv] at hcomp
      · intro hfail
        simp [downloadFileRun, hv] at hfail
    · have hv2 : (verifyContent hf task.ext c0 task.expectedSize none).fst = false := by
        simpa using hv
      simp only [downloadFileRun, hv2]
      simpa using hloop

/-- Witness for `c2_terminal_invariants`: a delivered 2 KB FLAC body
completes and its destination content verifies; a run that only ever
delivers a sub-2 KB body fails with the attempt counter at its ceiling. -/
theorem c2_terminal_invariants_witness :
    (∃ c, (downloadFileRun constHash (fun _ => envGood) sampleTask none).dest = some c ∧
      (verifyContent constHash
        (downloadFileRun constHash (fun _ => envGood) sampleTask none).task.ext c
        (downloadFileRun constHash (fun _ => envGood) sampleTask none).task.expectedSize
        (downloadFileRun constHash (fun _ => envGood) sampleTask none).task.expectedHash).fst
          = true) ∧
    (downloadFileRun constHash (fun _ => envSmall) sampleTask none).task.maxAttempts ≤
      (downloadFileRun constHash (fun _ => envSmall) sampleTask none).task.attempts :=
  ⟨(c2_terminal_invariants constHash (fun _ => envGood) sampleTask none).1
     (by rw [downloadFileRun_envGood]),
   (c2_terminal_invariants constHash (fun _ => envSmall) sampleTask none).2 (by rfl)⟩

/-- C1 (corrected, part 1 — what does hold): every content the engine ever
places at the destination path is the complete body of a successful
HTTP 200 response with a good content type and no mid-stream failure —
bytes are streamed only to the uniquely suffixed temp file, and only a
fully written temp file is moved onto the destination, so no partially
written file is ever observed there. -/
theorem c1_placed_contents_complete (hf : Body → String) (envs : Nat → AttemptEnv)
    (task : DownloadTask) (dest : Option Body) (c : Body)
    (hm : Ev.moveToDest c ∈ (downloadFileRun hf envs task dest).trace) :
    CompleteBody envs c := by
  cases dest with
  | none =>
    refine downloadLoopGo_moves hf envs _ task none [] ?_ c
      (by simpa only [downloadFileRun] using hm)
    intro c2 hx
    simp at hx
  | some c0 =>
    by_cases hv : (verifyContent hf task.ext c0 task.expectedSize none).fst = true
    · simp [downloadFileRun, hv] at hm
    · have hv2 : (verifyContent hf task.ext c0 task.expectedSize none).fst = false := by
        simpa using hv
      simp only [downloadFileRun, hv2] at hm
      rcases List.mem_cons.mp hm with hx | hx
      · simp at hx
      · refine downloadLoopGo_moves hf envs _ task none [] ?_ c hx
        intro c2 hy
        simp at hy

/-- Witness for `c1_placed_contents_complete`: the successful run places
`flacBody`, and it is indeed a complete 200 body of the oracle. -/
theorem c1_placed_contents_complete_witness :
    CompleteBody (fun _ => envGood) flacBody :=
  c1_placed_contents_complete constHash (fun _ => envGood) sampleTask none flacBody
    (by rw [downloadFileRun_envGood]; simp)

/-- C1 counterexample to the claim as stated: the code moves the fully
written temp file onto the destination BEFORE verifying — the verifier
then runs on the destination path. In a run whose delivered body fails
verification, the trace contains a move onto the destination that is not
preceded by any successful verification of that content (and the moved
content in fact fails verification afterwards): a not-yet-verified file is
observed at the destination path. -/
theorem c1_counterexample :
    specRenameOnlyAfterVerify []
      (downloadFileRun constHash (fun _ => envSmall) sampleTask none).trace = false ∧
    Ev.moveToDest smallBody ∈
      (downloadFileRun constHash (fun _ => envSmall) sampleTask none).trace ∧
    Ev.verifyRun smallBody false ∈
      (downloadFileRun constHash (fun _ => envSmall) sampleTask none).trace := by
  refine ⟨by rfl, by decide, by decide⟩

/-- C4 (corrected): on a 429 response the engine sleeps exactly
`min(60 * attemptNumber, 300)` seconds before the next attempt — the
`Retry-After` value is recorded only inside the error message and never
used for the sleep — and the attempt counter increments by exactly one for
that cycle. Since the sleep is at least 60 s, a `Retry-After: 5` is still
waited out in effect. -/
theorem c4_rate_limit_sleep (hf : Body → String) (task : DownloadTask)
    (dest : Option Body) (env : AttemptEnv) (r : HttpResponse)
    (h1 : env.http = HttpOutcome.resp r) (h2 : r.status = 429) :
    downloadCycle hf task dest env =
      (CycleStep.again {task with attempts := task.attempts + 1,
                                  status := DownloadStatus.downloading},
       dest, [Ev.httpRequest, Ev.sleepSecs (min (60 * (task.attempts + 1)) 300)]) ∧
    5 ≤ min (60 * (task.attempts + 1)) 300 := by
  constructor
  · have hmsg := rateMsg_matches
      (match r.retryAfter with | some n => toString n | none => "60")
    simp [downloadCycle, downloadWithProgress, h1, h2, hmsg]
  · rw [Nat.min_def]
    split <;> omega

/-- Witness for `c4_rate_limit_sleep` at a concrete 429 attempt. -/
theorem c4_rate_limit_sleep_witness :
    downloadCycle constHash sampleTask none env429 =
      (CycleStep.again {sampleTask with attempts := sampleTask.attempts + 1,
                                        status := DownloadStatus.downloading},
       none, [Ev.httpRequest, Ev.sleepSecs (min (60 * (sampleTask.attempts + 1)) 300)]) ∧
    5 ≤ min (60 * (sampleTask.attempts + 1)) 300 :=
  c4_rate_limit_sleep constHash sampleTask none env429
    { status := 429, retryAfter := some 400, contentType := "", contentLength := 0
      body := [], streamFail := none } rfl rfl

/-- C4 counterexample to the claim as stated: the server supplies
`Retry-After: 400`, yet the only sleep before the next attempt is 60
seconds — the engine does not honor the header. -/
theorem c4_counterexample :
    env429.http = HttpOutcome.resp
      { status := 429, retryAfter := some 400, contentType := "", contentLength := 0
        body := [], streamFail := none } ∧
    (downloadCycle constHash sampleTask none env429).snd.snd =
      [Ev.httpRequest, Ev.sleepSecs 60] ∧
    (60 : Nat) < 400 := by
  refine ⟨rfl, by rfl, by norm_num⟩

/-- C7 (confirmed): when content already sits at the destination and
passes the integrity verifier (run with the expected size, as the
pre-check does), the task goes directly to `SKIPPED`, no HTTP request is
issued and the content is untouched; when it fails verification, the file
is deleted and the normal retry loop runs. -/
theorem c7_existing_valid_skips (hf : Body → String) (envs : Nat → AttemptEnv)
    (task : DownloadTask) (c : Body) :
    ((verifyContent hf task.ext c task.expectedSize none).fst = true →
      downloadFileRun hf envs task (some c) =
        { task := {task with status := DownloadStatus.skipped}, ok := true
          err := none, dest := some c, trace := [] } ∧
      countHttpRequests (downloadFileRun hf envs task (some c)).trace = 0) ∧
    ((verifyContent hf task.ext c task.expectedSize none).fst = false →
      downloadFileRun hf envs task (some c) =
        (let r := downloadLoopGo hf envs (task.maxAttempts - task.attempts) task none []
         {r with trace := Ev.deleteDest :: r.trace})) := by
  constructor
  · intro hv
    constructor
    · simp [downloadFileRun, hv]
    · simp [downloadFileRun, hv, countHttpRequests]
  · intro hv
    simp [downloadFileRun, hv]

/-- Witness for `c7_existing_valid_skips`: a valid 2 KB FLAC file at the
destination is skipped with zero requests; an invalid one falls through to
the retry loop with the destination deleted first. -/
theorem c7_existing_valid_skips_witness :
    (downloadFileRun constHash (fun _ => envGood) sampleTask (some flacBody) =
      { task := {sampleTask with status := DownloadStatus.skipped}, ok := true
        err := none, dest := some flacBody, trace := [] } ∧
     countHttpRequests
       (downloadFileRun constHash (fun _ => envGood) sampleTask (some flacBody)).trace = 0) ∧
    downloadFileRun constHash (fun _ => envSmall) sampleTask (some smallBody) =
      (let r := downloadLoopGo constHash (fun _ => envSmall)
         (sampleTask.maxAttempts - sampleTask.attempts) sampleTask none []
       {r with trace := Ev.deleteDest :: r.trace}) :=
  ⟨(c7_existing_valid_skips constHash (fun _ => envGood) sampleTask flacBody).1
     (by have hv := verifyContent_flacBody constHash none rfl
         show (verifyContent constHash ".flac" flacBody none none).fst = true
         rw [hv]),
   (c7_existing_valid_skips constHash (fun _ => envSmall) sampleTask smallBody).2 (by rfl)⟩

/-- C3 (code bug): when segment 0 exhausts all three of its attempts with
HTTP 429 responses — a terminal failure, no 200 was ever received — the
`for attempt in range(MAX_RETRIES)` loop falls through silently and the
url loop moves on: `download_segments` reports success and the destination
receives only the bytes of segment 1, a truncated concatenation. -/
theorem c3_silent_segment_skip :
    (downloadSegmentsRun seg429Ocs 2).ok = true ∧
    (downloadSegmentsRun seg429Ocs 2).err = none ∧
    (downloadSegmentsRun seg429Ocs 2).dest = some segBody1 := by
  refine ⟨rfl, rfl, rfl⟩

end Tidmon
